import Mathlib

/-!
Shallow embedding of `src/app.py`, a Flask-RESTX CRUD service over a single
SQLite table `country`, together with theorems settling the specification
claims about it.

Modelling conventions:

* A committed row of the table is `App.Country`.  All six non-id columns are
  declared `nullable=False` in the source (lines 22-27), so committed rows
  carry no NULLs; `id` is the INTEGER primary key, assigned by SQLite as one
  more than the largest id currently in the table (at least 1).
* The table is the list of committed rows in storage order; `Query.all()`
  with no `order_by` returns that order, `order_by(...)` returns a sorted
  permutation (modelled by a stable sort with the column comparison;
  SQLite compares INTEGER columns numerically and TEXT columns with the
  BINARY collation, i.e. code-point-lexicographically on the UTF-8 text).
* A parsed JSON body accessed with `data.get(...)` is `App.CountryData`:
  each absent key reads as `None`, hence `Option` fields.
* A Python exception escaping a handler is an `Except.error`; Flask-RESTX
  turns `abort(404)` (from `get_or_404`) into HTTP 404 and any other
  uncaught exception into HTTP 500 (`App.statusOfError`).
* `@api.marshal_with(..., code=...)`'s `code` argument only feeds the
  Swagger documentation in Flask-RESTX; the actual HTTP status is 200
  unless the handler returns an explicit `(body, code)` tuple.  Only
  `CountryResource.get/put/delete` return such tuples (all with 200), so
  every successful handler here responds 200.  Marshalling `None` through
  `country_model` produces the Flask-RESTX field defaults: `0` for
  `fields.Integer`, `null` for `fields.String` (`App.marshalCountry`).
-/

deriving instance DecidableEq for Except

namespace App

/-- A committed row of the `country` table (`src/app.py` lines 20-27).
The six non-id columns are `nullable=False`, so a committed row has a
concrete value in every column. -/
structure Country where
  id : Int
  country_name : String
  capital_of_the_country : String
  living_standard : String
  country_area : Int
  population_of_the_country : Int
  phone_code : Int
  deriving DecidableEq

/-- The country table: committed rows in storage order. -/
abbrev Table := List Country

/-- The JSON body of a create/update request as read by `data.get(key)`
(`src/app.py` lines 74-79 and 141-146): an absent key reads as `None`. -/
structure CountryData where
  country_name : Option String
  capital_of_the_country : Option String
  living_standard : Option String
  country_area : Option Int
  population_of_the_country : Option Int
  phone_code : Option Int
  deriving DecidableEq

/-- The columns of the `Country` model (`src/app.py` lines 21-27). -/
inductive Column where
  | id
  | country_name
  | capital_of_the_country
  | living_standard
  | country_area
  | population_of_the_country
  | phone_code
  deriving DecidableEq

/-- Resolution of a string to a column of `Country`: the case-sensitive
exact column names declared in `src/app.py` lines 21-27. -/
def columnOfName : String → Option Column
  | "id" => some Column.id
  | "country_name" => some Column.country_name
  | "capital_of_the_country" => some Column.capital_of_the_country
  | "living_standard" => some Column.living_standard
  | "country_area" => some Column.country_area
  | "population_of_the_country" => some Column.population_of_the_country
  | "phone_code" => some Column.phone_code
  | _ => none

/-- Attributes of the `Country` class that are not columns, modelled
representatively: `__repr__` is defined in the source (lines 29-30) and
`__init__` is inherited; `getattr` on them yields a plain function, not a
column.  (The Python class carries further inherited non-column attributes;
any of them behaves like these two.) -/
def countryNonColumnAttrs : List String := ["__repr__", "__init__"]

/-- Model of `hasattr(Country, s)` (`src/app.py` line 62): true for every attribute
of the class, columns and non-columns alike, by case-sensitive name. -/
def hasattrCountry (s : String) : Bool :=
  (columnOfName s).isSome || decide (s ∈ countryNonColumnAttrs)

/-- The value a committed row holds in one column. -/
inductive FieldValue where
  | int : Int → FieldValue
  | str : String → FieldValue
  deriving DecidableEq

/-- Read one column of a committed row. -/
def getCol (r : Country) : Column → FieldValue
  | Column.id => FieldValue.int r.id
  | Column.country_name => FieldValue.str r.country_name
  | Column.capital_of_the_country => FieldValue.str r.capital_of_the_country
  | Column.living_standard => FieldValue.str r.living_standard
  | Column.country_area => FieldValue.int r.country_area
  | Column.population_of_the_country => FieldValue.int r.population_of_the_country
  | Column.phone_code => FieldValue.int r.phone_code

/-- Lexicographic comparison of text, code point by code point: SQLite's
BINARY collation (memcmp of the UTF-8 encodings, which agrees with
code-point order). -/
def strLe : List Char → List Char → Bool
  | [], _ => true
  | _ :: _, [] => false
  | a :: as, b :: bs =>
    if a < b then true
    else if b < a then false
    else strLe as bs

/-- SQLite column-value comparison: INTEGER numerically, TEXT by BINARY
collation; across storage classes every INTEGER sorts before every TEXT
(never exercised here, since each column is uniformly typed). -/
def FieldValue.le : FieldValue → FieldValue → Bool
  | FieldValue.int a, FieldValue.int b => decide (a ≤ b)
  | FieldValue.str a, FieldValue.str b => strLe a.data b.data
  | FieldValue.int _, FieldValue.str _ => true
  | FieldValue.str _, FieldValue.int _ => false

/-- The `ORDER BY` comparison built at `src/app.py` lines 57-58 and 63-64:
`desc` when the (defaulted) `order` parameter is exactly `"desc"`,
ascending otherwise. -/
def sortLe (isDesc : Bool) (c : Column) (a b : Country) : Bool :=
  if isDesc then FieldValue.le (getCol b c) (getCol a c)
  else FieldValue.le (getCol a c) (getCol b c)

/-- Version of `sortLe` as a decidable relation, to feed the sorting routine that
models `ORDER BY` (a stable sort of the rows by the column comparison). -/
def sortRel (isDesc : Bool) (c : Column) (a b : Country) : Prop :=
  sortLe isDesc c a b = true

instance (isDesc : Bool) (c : Column) : DecidableRel (sortRel isDesc c) :=
  fun a b => instDecidableEqBool (sortLe isDesc c a b) true

/-- How a handler run can fail: `notFound` is Flask's `abort(404)` raised by
`get_or_404`; the other three are uncaught Python exceptions
(`getattr` on a missing attribute, SQLAlchemy rejecting a non-column
argument to `asc()`/`desc()`, and the database rejecting a NULL in a
`nullable=False` column at commit). -/
inductive HandlerError where
  | notFound
  | attributeError
  | argumentError
  | integrityError
  deriving DecidableEq

/-- The HTTP status Flask-RESTX produces for each escaping error:
`abort(404)` stays 404, every other uncaught exception becomes 500. -/
def statusOfError : HandlerError → Nat
  | HandlerError.notFound => 404
  | HandlerError.attributeError => 500
  | HandlerError.argumentError => 500
  | HandlerError.integrityError => 500

/-- The external representation produced by marshalling through
`country_model` (`src/app.py` lines 33-44).  Marshalling a row copies its
fields; marshalling `None` (no row) yields the Flask-RESTX field defaults:
`0` for `fields.Integer`, `null` for `fields.String`. -/
structure MarshalledCountry where
  id : Int
  country_name : Option String
  capital_of_the_country : Option String
  living_standard : Option String
  country_area : Int
  population_of_the_country : Int
  phone_code : Int
  deriving DecidableEq

/-- Marshal an optional row through `country_model`. -/
def marshalCountry : Option Country → MarshalledCountry
  | some c =>
    { id := c.id, country_name := some c.country_name,
      capital_of_the_country := some c.capital_of_the_country,
      living_standard := some c.living_standard, country_area := c.country_area,
      population_of_the_country := c.population_of_the_country,
      phone_code := c.phone_code }
  | none =>
    { id := 0, country_name := none, capital_of_the_country := none,
      living_standard := none, country_area := 0,
      population_of_the_country := 0, phone_code := 0 }

/-- The id SQLite assigns to a newly inserted row (INTEGER primary key,
no explicit value): one more than the largest id in the table, at least 1. -/
def maxRowId : Table → Int
  | [] => 0
  | r :: rest => max r.id (maxRowId rest)

/-- The row an INSERT or UPDATE tries to commit, built from the request
body: `None` when some `nullable=False` column would receive NULL, in which
case the commit raises `IntegrityError`. -/
def CountryData.toRow (i : Int) (data : CountryData) : Option Country :=
  match data.country_name, data.capital_of_the_country, data.living_standard,
        data.country_area, data.population_of_the_country, data.phone_code with
  | some n, some cap, some ls, some ar, some pop, some pc =>
    some { id := i, country_name := n, capital_of_the_country := cap,
           living_standard := ls, country_area := ar,
           population_of_the_country := pop, phone_code := pc }
  | _, _, _, _, _, _ => none

/-- Handler `Countries.get` (`src/app.py` lines 50-66): optional `sort` and `order`
query parameters; `order` defaults to `"asc"` and anything but `"desc"`
means ascending; ordering is applied only when `sort` is a present
attribute of the class (`hasattr`), and applying it to a non-column
attribute makes `asc()`/`desc()` raise. -/
def countriesGet (d : Table) (sort_by : Option String) (order : Option String) :
    Except HandlerError (Nat × List Country) :=
  match sort_by with
  | none => Except.ok (200, d)
  | some s =>
    if hasattrCountry s then
      match columnOfName s with
      | some c => Except.ok (200, d.insertionSort (sortRel ((order.getD ("asc")) == "desc") c))
      | none => Except.error HandlerError.argumentError
    else Except.ok (200, d)

/-- Handler `Countries.post` (`src/app.py` lines 68-89): read the six fields with
`data.get`, insert, commit; a missing field is a NULL in a `nullable=False`
column and the commit raises `IntegrityError`.  On success the new row is
returned under the `country` envelope with HTTP 200 (the bare return). -/
def countriesPost (d : Table) (data : CountryData) :
    Except HandlerError (Table × Nat × String × Country) :=
  match data.toRow (maxRowId d + 1) with
  | none => Except.error HandlerError.integrityError
  | some row => Except.ok (d ++ [row], 200, "country", row)

/-- Handler `CountryWithMaxValue.get` (`src/app.py` lines 92-99): unchecked
`getattr(Country, field)` (AttributeError on a non-attribute; on a
non-column attribute the subsequent `.desc()` call raises AttributeError as
well), then `order_by(desc).first()` marshalled with HTTP 200. -/
def countryWithMaxValueGet (d : Table) (field : String) :
    Except HandlerError (Nat × MarshalledCountry) :=
  match columnOfName field with
  | none => Except.error HandlerError.attributeError
  | some c => Except.ok (200, marshalCountry ((d.insertionSort (sortRel true c)).head?))

/-- Handler `CountryWithMinValue.get` (`src/app.py` lines 102-109): same as the
maximum endpoint with `order_by(asc).first()`. -/
def countryWithMinValueGet (d : Table) (field : String) :
    Except HandlerError (Nat × MarshalledCountry) :=
  match columnOfName field with
  | none => Except.error HandlerError.attributeError
  | some c => Except.ok (200, marshalCountry ((d.insertionSort (sortRel false c)).head?))

/-- The value SQLite's `avg()` gives one text operand: its numeric prefix
(0 when there is none).  Fractional and exponent forms are not modelled;
no claim depends on the numeric value of a text average. -/
def leadingDigitsVal : List Char → Int → Int
  | c :: rest, acc =>
    if c.isDigit then leadingDigitsVal rest (10 * acc + ((c.toNat : Int) - 48)) else acc
  | [], acc => acc

/-- SQLite text-to-number coercion used inside `avg()`. -/
def sqliteTextToInt (s : String) : Int :=
  match s.data with
  | '-' :: rest => - leadingDigitsVal rest 0
  | '+' :: rest => leadingDigitsVal rest 0
  | cs => leadingDigitsVal cs 0

/-- The number SQLite's `avg()` adds up for one column value. -/
def sqliteNumeric : FieldValue → Rat
  | FieldValue.int n => (n : Rat)
  | FieldValue.str s => (sqliteTextToInt s : Rat)

/-- Handler `CountryAverageValue.get` (`src/app.py` lines 112-121): unchecked
`getattr`, then `SELECT avg(column)`; `avg` over zero rows is SQL NULL,
which `scalar()` reads as `None`; the handler returns the plain dict
`{field, average_value}` with HTTP 200 (no marshalling decorator). -/
def countryAverageValueGet (d : Table) (field : String) :
    Except HandlerError (Nat × String × Option Rat) :=
  match columnOfName field with
  | none => Except.error HandlerError.attributeError
  | some c =>
    let avg : Option Rat :=
      if d.isEmpty then none
      else some (((d.map fun r => sqliteNumeric (getCol r c)).sum) / (d.length : Rat))
    Except.ok (200, field, avg)

/-- Handler `CountryResource.get` (`src/app.py` lines 127-132): primary-key lookup
via `get_or_404`, result under the `country` envelope with HTTP 200. -/
def countryResourceGet (d : Table) (i : Int) :
    Except HandlerError (Nat × String × Country) :=
  match d.find? (fun r => r.id == i) with
  | none => Except.error HandlerError.notFound
  | some c => Except.ok (200, "country", c)

/-- Handler `CountryResource.put` (`src/app.py` lines 134-150): `get_or_404`, then
overwrite all six non-id fields with `data.get` values (the id attribute is
never assigned) and commit; a missing field is a NULL in a `nullable=False`
column and the commit raises `IntegrityError`.  The id is the primary key,
so updating the fetched row rewrites exactly the rows bearing that id. -/
def countryResourcePut (d : Table) (i : Int) (data : CountryData) :
    Except HandlerError (Table × Nat × String × Country) :=
  match d.find? (fun r => r.id == i) with
  | none => Except.error HandlerError.notFound
  | some _ =>
    match data.toRow i with
    | none => Except.error HandlerError.integrityError
    | some row =>
      Except.ok (d.map (fun r => if r.id == i then row else r), 200, "country", row)

/-- Handler `CountryResource.delete` (`src/app.py` lines 152-161): `get_or_404`,
then delete the fetched row and commit, returning it under the
`country_deleted` envelope with HTTP 200.  The id is the primary key, so
deleting the fetched row removes every row bearing that id. -/
def countryResourceDelete (d : Table) (i : Int) :
    Except HandlerError (Table × Nat × String × Country) :=
  match d.find? (fun r => r.id == i) with
  | none => Except.error HandlerError.notFound
  | some c =>
    Except.ok (d.filter (fun r => !(r.id == i)), 200, "country_deleted", c)

/-- Sample rows and bodies used by concrete witnesses. -/
def wakanda : Country :=
  { id := 1, country_name := "Wakanda", capital_of_the_country := "Birnin",
    living_standard := "High", country_area := 100000,
    population_of_the_country := 6000000, phone_code := 999 }

def wakandaData : CountryData :=
  { country_name := some ("Wakanda"), capital_of_the_country := some ("Birnin"),
    living_standard := some ("High"), country_area := some 100000,
    population_of_the_country := some 6000000, phone_code := some 999 }

def atlantis : Country :=
  { id := 2, country_name := "Atlantis", capital_of_the_country := "Poseidon",
    living_standard := "Legendary", country_area := 5000,
    population_of_the_country := 40000, phone_code := 111 }

def partialBody : CountryData :=
  { country_name := some ("Wakanda"), capital_of_the_country := none,
    living_standard := none, country_area := none,
    population_of_the_country := none, phone_code := none }

def updData : CountryData :=
  { country_name := some ("Updatia"), capital_of_the_country := some ("NewCap"),
    living_standard := some ("Medium"), country_area := some 1,
    population_of_the_country := some 2, phone_code := some 3 }

def updatedAtlantis : Country :=
  { id := 2, country_name := "Updatia", capital_of_the_country := "NewCap",
    living_standard := "Medium", country_area := 1,
    population_of_the_country := 2, phone_code := 3 }

/-! Helper lemmas about the comparison functions, the sort, the insert row
and the generated id. -/

theorem strLe_total : ∀ a b : List Char, strLe a b = true ∨ strLe b a = true := by
  intro a
  induction a with
  | nil => intro b; exact Or.inl rfl
  | cons x as ih =>
    intro b
    cases b with
    | nil => exact Or.inr rfl
    | cons y bs =>
      by_cases hxy : x < y
      · left; simp [strLe, hxy]
      · by_cases hyx : y < x
        · right; simp [strLe, hyx]
        · rcases ih bs with h | h
          · left; simp [strLe, hxy, hyx, h]
          · right; simp [strLe, hxy, hyx, h]

theorem strLe_trans : ∀ a b c : List Char,
    strLe a b = true → strLe b c = true → strLe a c = true := by
  intro a
  induction a with
  | nil => intro b c _ _; rfl
  | cons x as ih =>
    intro b c hab hbc
    cases b with
    | nil => simp [strLe] at hab
    | cons y bs =>
      cases c with
      | nil => simp [strLe] at hbc
      | cons z cs =>
        by_cases hxy : x < y
        · by_cases hyz : y < z
          · simp [strLe, lt_trans hxy hyz]
          · by_cases hzy : z < y
            · simp [strLe, hyz, hzy] at hbc
            · have hyz' : y = z := le_antisymm (not_lt.mp hzy) (not_lt.mp hyz)
              subst hyz'
              simp [strLe, hxy]
        · by_cases hyx : y < x
          · simp [strLe, hxy, hyx] at hab
          · have hxy' : x = y := le_antisymm (not_lt.mp hyx) (not_lt.mp hxy)
            subst hxy'
            simp only [strLe, if_neg (lt_irrefl x)] at hab
            by_cases hxz : x < z
            · simp [strLe, hxz]
            · by_cases hzx : z < x
              · simp [strLe, hxz, hzx] at hbc
              · have hxz' : x = z := le_antisymm (not_lt.mp hzx) (not_lt.mp hxz)
                subst hxz'
                simp only [strLe, if_neg (lt_irrefl x)] at hbc ⊢
                exact ih bs cs hab hbc

theorem fvLe_total : ∀ a b : FieldValue, FieldValue.le a b = true ∨ FieldValue.le b a = true := by
  intro a b
  cases a with
  | int m =>
    cases b with
    | int n => simp only [FieldValue.le, decide_eq_true_eq]; omega
    | str s => exact Or.inl rfl
  | str s =>
    cases b with
    | int n => exact Or.inr rfl
    | str t => exact strLe_total s.data t.data

theorem fvLe_trans : ∀ a b c : FieldValue,
    FieldValue.le a b = true → FieldValue.le b c = true → FieldValue.le a c = true := by
  intro a b c hab hbc
  cases a <;> cases b <;> cases c <;>
    simp only [FieldValue.le, decide_eq_true_eq] at hab hbc ⊢ <;>
    first
      | omega
      | trivial
      | exact strLe_trans _ _ _ hab hbc

instance (isDesc : Bool) (c : Column) : IsTotal Country (sortRel isDesc c) := by
  constructor
  intro a b
  cases isDesc with
  | false => exact fvLe_total (getCol a c) (getCol b c)
  | true => exact fvLe_total (getCol b c) (getCol a c)

instance (isDesc : Bool) (c : Column) : IsTrans Country (sortRel isDesc c) := by
  constructor
  intro a b e hab hbe
  cases isDesc with
  | false => exact fvLe_trans _ _ _ hab hbe
  | true => exact fvLe_trans _ _ _ hbe hab

/-- Head of the sorted list: a member dominating every row under the sort
relation.  Models `order_by(...).first()`. -/
theorem head_insertionSort_min (r : Country → Country → Prop) [DecidableRel r]
    [IsTotal Country r] [IsTrans Country r] (d : List Country) (hne : d ≠ []) :
    ∃ x, x ∈ d ∧ (d.insertionSort r).head? = some x ∧ ∀ y ∈ d, r x y := by
  have hperm : (d.insertionSort r).Perm d := List.perm_insertionSort r d
  have hsorted := List.sorted_insertionSort r d
  cases hl : d.insertionSort r with
  | nil =>
    rw [hl] at hperm
    exact absurd hperm.symm.eq_nil hne
  | cons x t =>
    rw [hl] at hperm hsorted
    refine ⟨x, hperm.subset (List.mem_cons_self x t), rfl, ?_⟩
    intro y hy
    have hy' : y ∈ x :: t := hperm.mem_iff.mpr hy
    rcases List.mem_cons.mp hy' with rfl | hyt
    · rcases IsTotal.total (r := r) y y with h | h <;> exact h
    · exact (List.sorted_cons.mp hsorted).1 y hyt

theorem toRow_id {data : CountryData} {i : Int} {row : Country}
    (h : data.toRow i = some row) : row.id = i := by
  unfold CountryData.toRow at h
  split at h
  · cases h; rfl
  · exact absurd h (by simp)

theorem toRow_eq_none {data : CountryData} (i : Int)
    (h : data.country_name = none ∨ data.capital_of_the_country = none ∨
      data.living_standard = none ∨ data.country_area = none ∨
      data.population_of_the_country = none ∨ data.phone_code = none) :
    data.toRow i = none := by
  unfold CountryData.toRow
  split
  · rcases h with h | h | h | h | h | h <;> simp_all
  · rfl

theorem le_maxRowId : ∀ (d : Table), ∀ r ∈ d, r.id ≤ maxRowId d := by
  intro d
  induction d with
  | nil => intro r hr; cases hr
  | cons x xs ih =>
    intro r hr
    rcases List.mem_cons.mp hr with rfl | hr'
    · exact le_max_left _ _
    · exact le_trans (ih r hr') (le_max_right _ _)

theorem countriesGet_column (d : Table) (f : String) (c : Column) (order : Option String)
    (hf : columnOfName f = some c) :
    countriesGet d (some f) order =
      Except.ok (200, d.insertionSort (sortRel ((order.getD ("asc")) == "desc") c)) := by
  unfold countriesGet
  have hattr : hasattrCountry f = true := by
    unfold hasattrCountry
    rw [hf]
    rfl
  simp [hattr, hf]

/-! Theorems settling the claims C1 to C10. -/

/-- C1: the claim says a max/min/average request whose path field name is
not a valid `Country` column name fails with an `UnknownField` error
translated to HTTP 400.  The code instead performs an unchecked
`getattr(Country, field)`, so the request dies with an uncaught
`AttributeError`, which Flask-RESTX surfaces as HTTP 500 — the behavior the
spec itself flags as missing from the source.  This theorem records the
actual behavior at every invalid field name. -/
theorem c1_unknown_field_crashes_500 (d : Table) (f : String)
    (hf : columnOfName f = none) :
    countryWithMaxValueGet d f = Except.error HandlerError.attributeError ∧
    countryWithMinValueGet d f = Except.error HandlerError.attributeError ∧
    countryAverageValueGet d f = Except.error HandlerError.attributeError ∧
    statusOfError HandlerError.attributeError = 500 := by
  refine ⟨?_, ?_, ?_, rfl⟩
  · unfold countryWithMaxValueGet
    rw [hf]
  · unfold countryWithMinValueGet
    rw [hf]
  · unfold countryAverageValueGet
    rw [hf]

/-- Witness for C1 at the concrete field name `not_a_field`. -/
theorem c1_unknown_field_crashes_500_witness :
    countryWithMaxValueGet [] ("not_a_field") = Except.error HandlerError.attributeError ∧
    countryWithMinValueGet [] ("not_a_field") = Except.error HandlerError.attributeError ∧
    countryAverageValueGet [] ("not_a_field") = Except.error HandlerError.attributeError ∧
    statusOfError HandlerError.attributeError = 500 :=
  c1_unknown_field_crashes_500 [] ("not_a_field") rfl

/-- C2, counterexample: the claim says a `sort` value naming a non-column
attribute (such as a method) is rejected as a sort key and the request
still succeeds with 200.  In the code the check is `hasattr`, which the
method `__repr__` (defined in the source) passes; the attribute is then
dereferenced and handed to `asc()`, which raises, so the request fails
with HTTP 500 instead of succeeding with 200. -/
theorem c2_counterexample :
    countriesGet [wakanda] (some ("__repr__")) none = Except.error HandlerError.argumentError ∧
    statusOfError HandlerError.argumentError = 500 := by decide

/-- C2, amended: if `sort` is omitted, or names no attribute of the
`Country` class at all, no ordering is applied and the request succeeds
with 200 (the membership test is case-sensitive `hasattr`); but a value
naming a non-column attribute passes that check, is dereferenced, and the
request fails with HTTP 500 rather than being rejected as a sort key. -/
theorem c2_sort_fallback (d : Table) (sort_by order : Option String) :
    (sort_by = none → countriesGet d sort_by order = Except.ok (200, d)) ∧
    (∀ s, sort_by = some s → hasattrCountry s = false →
      countriesGet d sort_by order = Except.ok (200, d)) ∧
    (∀ s, sort_by = some s → s ∈ countryNonColumnAttrs →
      countriesGet d sort_by order = Except.error HandlerError.argumentError ∧
      statusOfError HandlerError.argumentError = 500) := by
  refine ⟨?_, ?_, ?_⟩
  · rintro rfl
    rfl
  · rintro s rfl hattr
    unfold countriesGet
    simp [hattr]
  · rintro s rfl hmem
    have hcol : columnOfName s = none := by
      rcases List.mem_cons.mp hmem with rfl | hmem'
      · rfl
      · rcases List.mem_cons.mp hmem' with rfl | h
        · rfl
        · cases h
    have hattr : hasattrCountry s = true := by
      unfold hasattrCountry
      simp [hmem]
    refine ⟨?_, rfl⟩
    unfold countriesGet
    simp [hattr, hcol]

/-- Witness for C2 at the concrete non-attribute sort key
`not_a_real_field`: 200 with the unsorted table. -/
theorem c2_sort_fallback_witness :
    countriesGet [wakanda] (some ("not_a_real_field")) none = Except.ok (200, [wakanda]) :=
  (c2_sort_fallback [wakanda] (some ("not_a_real_field")) none).2.1
    "not_a_real_field" rfl (by decide)

/-- C3, counterexample: the claim says a create or update whose body omits
some of the six non-id fields succeeds and stores null for each omitted
field.  All six columns are declared `nullable=False`, so the commit
violates a NOT NULL constraint: both operations die with an uncaught
`IntegrityError` (HTTP 500) on a body carrying only `country_name`. -/
theorem c3_counterexample :
    countriesPost [] partialBody = Except.error HandlerError.integrityError ∧
    countryResourcePut [wakanda] 1 partialBody = Except.error HandlerError.integrityError ∧
    statusOfError HandlerError.integrityError = 500 := by decide

/-- C3, amended: a create or update whose JSON body omits at least one of
the six non-id fields never succeeds: the missing field is read as null,
the `nullable=False` column rejects it, and the commit raises
`IntegrityError` (HTTP 500); update therefore either 404s (id absent) or
fails with that error, and no null is ever stored. -/
theorem c3_omitted_fields_fail (d : Table) (i : Int) (data : CountryData)
    (homit : data.country_name = none ∨ data.capital_of_the_country = none ∨
      data.living_standard = none ∨ data.country_area = none ∨
      data.population_of_the_country = none ∨ data.phone_code = none) :
    countriesPost d data = Except.error HandlerError.integrityError ∧
    (countryResourcePut d i data = Except.error HandlerError.notFound ∨
     countryResourcePut d i data = Except.error HandlerError.integrityError) ∧
    statusOfError HandlerError.integrityError = 500 := by
  have hrow : ∀ j : Int, data.toRow j = none := fun j => toRow_eq_none j homit
  refine ⟨?_, ?_, rfl⟩
  · unfold countriesPost
    rw [hrow]
  · unfold countryResourcePut
    cases hfind : d.find? (fun r => r.id == i) with
    | none => exact Or.inl rfl
    | some c0 => rw [hrow]; exact Or.inr rfl

/-- Witness for C3 at the concrete partial body carrying only
`country_name`. -/
theorem c3_omitted_fields_fail_witness :
    countriesPost [] partialBody = Except.error HandlerError.integrityError :=
  (c3_omitted_fields_fail [] 1 partialBody (Or.inr (Or.inl rfl))).1

/-- C4, counterexample: the claim says a max/min request with a valid field
on an empty table yields a no-result outcome equivalent to 404.  The code
returns `first()` — `None` — which `marshal_with` turns into HTTP 200 with
a fabricated default record (integer fields 0, string fields null). -/
theorem c4_counterexample :
    countryWithMaxValueGet [] ("population_of_the_country") =
      Except.ok (200, marshalCountry none) ∧
    marshalCountry none =
      { id := 0, country_name := none, capital_of_the_country := none,
        living_standard := none, country_area := 0,
        population_of_the_country := 0, phone_code := 0 } := by decide

/-- C4, amended: a max or min request with a valid field name on an empty
table returns HTTP 200 with the record marshalled from no row (integer
fields 0, string fields null) — a fabricated success, not a 404-equivalent
no-result. -/
theorem c4_empty_table_fabricated_200 (f : String) (c : Column)
    (hf : columnOfName f = some c) :
    countryWithMaxValueGet [] f = Except.ok (200, marshalCountry none) ∧
    countryWithMinValueGet [] f = Except.ok (200, marshalCountry none) := by
  constructor
  · unfold countryWithMaxValueGet
    rw [hf]
    rfl
  · unfold countryWithMinValueGet
    rw [hf]
    rfl

/-- Witness for C4 at the concrete field name `id`. -/
theorem c4_empty_table_fabricated_200_witness :
    countryWithMaxValueGet [] ("id") = Except.ok (200, marshalCountry none) ∧
    countryWithMinValueGet [] ("id") = Except.ok (200, marshalCountry none) :=
  c4_empty_table_fabricated_200 ("id") Column.id rfl

/-- C5: an average request with a valid field name on an empty table
returns HTTP 200 with `average_value` null — `avg()` over zero rows is SQL
NULL, read back as `None` — not zero and not an error. -/
theorem c5_average_empty_null (f : String) (c : Column)
    (hf : columnOfName f = some c) :
    countryAverageValueGet [] f = Except.ok (200, f, none) := by
  unfold countryAverageValueGet
  rw [hf]
  rfl

/-- Witness for C5 at the concrete field name
`population_of_the_country`. -/
theorem c5_average_empty_null_witness :
    countryAverageValueGet [] ("population_of_the_country") =
      Except.ok (200, "population_of_the_country", none) :=
  c5_average_empty_null ("population_of_the_country")
    Column.population_of_the_country rfl

/-- C6: a max (resp. min) request with a valid column name on a non-empty
table returns a row of the table whose value in that column is greatest
(resp. least) among all rows. -/
theorem c6_extremum_correct (d : Table) (f : String) (c : Column)
    (hf : columnOfName f = some c) (hne : d ≠ []) :
    (∃ r, r ∈ d ∧
      countryWithMaxValueGet d f = Except.ok (200, marshalCountry (some r)) ∧
      ∀ x ∈ d, FieldValue.le (getCol x c) (getCol r c) = true) ∧
    (∃ r, r ∈ d ∧
      countryWithMinValueGet d f = Except.ok (200, marshalCountry (some r)) ∧
      ∀ x ∈ d, FieldValue.le (getCol r c) (getCol x c) = true) := by
  constructor
  · obtain ⟨r, hmem, hhead, hall⟩ := head_insertionSort_min (sortRel true c) d hne
    refine ⟨r, hmem, ?_, ?_⟩
    · unfold countryWithMaxValueGet
      simp [hf, hhead]
    · intro x hx
      exact hall x hx
  · obtain ⟨r, hmem, hhead, hall⟩ := head_insertionSort_min (sortRel false c) d hne
    refine ⟨r, hmem, ?_, ?_⟩
    · unfold countryWithMinValueGet
      simp [hf, hhead]
    · intro x hx
      exact hall x hx

/-- Witness for C6 on a concrete two-row table sorted by population. -/
theorem c6_extremum_correct_witness :
    (∃ r, r ∈ ([wakanda, atlantis] : Table) ∧
      countryWithMaxValueGet [wakanda, atlantis] ("population_of_the_country") =
        Except.ok (200, marshalCountry (some r)) ∧
      ∀ x ∈ ([wakanda, atlantis] : Table),
        FieldValue.le (getCol x Column.population_of_the_country)
          (getCol r Column.population_of_the_country) = true) ∧
    (∃ r, r ∈ ([wakanda, atlantis] : Table) ∧
      countryWithMinValueGet [wakanda, atlantis] ("population_of_the_country") =
        Except.ok (200, marshalCountry (some r)) ∧
      ∀ x ∈ ([wakanda, atlantis] : Table),
        FieldValue.le (getCol r Column.population_of_the_country)
          (getCol x Column.population_of_the_country) = true) :=
  c6_extremum_correct [wakanda, atlantis] ("population_of_the_country")
    Column.population_of_the_country rfl (by decide)

/-- C7: a list request with a valid sort field returns a permutation of the
table that is non-increasing in that field when `order` is `desc`, and
non-decreasing when `order` is `asc` or any other value (everything outside
`desc` defaults to ascending, including an omitted `order`). -/
theorem c7_sort_direction (d : Table) (f : String) (c : Column) (order : Option String)
    (hf : columnOfName f = some c) :
    ∃ l : List Country,
      countriesGet d (some f) order = Except.ok (200, l) ∧ l.Perm d ∧
      (order.getD ("asc") = "desc" →
        l.Pairwise (fun a b => FieldValue.le (getCol b c) (getCol a c) = true)) ∧
      (order.getD ("asc") ≠ "desc" →
        l.Pairwise (fun a b => FieldValue.le (getCol a c) (getCol b c) = true)) := by
  refine ⟨_, countriesGet_column d f c order hf, List.perm_insertionSort _ _, ?_, ?_⟩
  · intro hdesc
    have hb : ((order.getD ("asc")) == "desc") = true := by
      simp [hdesc]
    rw [hb]
    exact List.Pairwise.imp (fun h => h)
      (List.sorted_insertionSort (sortRel true c) d)
  · intro hasc
    have hb : ((order.getD ("asc")) == "desc") = false := by
      simp [hasc]
    rw [hb]
    exact List.Pairwise.imp (fun h => h)
      (List.sorted_insertionSort (sortRel false c) d)

/-- Witness for C7 on a concrete two-row table, descending by
population. -/
theorem c7_sort_direction_witness :
    ∃ l : List Country,
      countriesGet [wakanda, atlantis] (some ("population_of_the_country"))
        (some ("desc")) = Except.ok (200, l) ∧
      l.Perm [wakanda, atlantis] ∧
      ((some ("desc")).getD ("asc") = "desc" →
        l.Pairwise (fun a b =>
          FieldValue.le (getCol b Column.population_of_the_country)
            (getCol a Column.population_of_the_country) = true)) ∧
      ((some ("desc")).getD ("asc") ≠ "desc" →
        l.Pairwise (fun a b =>
          FieldValue.le (getCol a Column.population_of_the_country)
            (getCol b Column.population_of_the_country) = true)) :=
  c7_sort_direction [wakanda, atlantis] ("population_of_the_country")
    Column.population_of_the_country (some ("desc")) rfl

/-- C8: after a successful create, reading the new row's id back returns
HTTP 200 with exactly the row the create returned, all seven fields
identical. -/
theorem c8_create_read_roundtrip (d : Table) (data : CountryData) (d' : Table)
    (code : Nat) (env : String) (c : Country)
    (h : countriesPost d data = Except.ok (d', code, env, c)) :
    countryResourceGet d' c.id = Except.ok (200, "country", c) := by
  unfold countriesPost at h
  cases hrow : data.toRow (maxRowId d + 1) with
  | none =>
    rw [hrow] at h
    exact absurd h (by simp)
  | some row =>
    rw [hrow] at h
    simp only [Except.ok.injEq, Prod.mk.injEq] at h
    obtain ⟨hd', hcode, henv, hc⟩ := h
    subst hd' hc
    have hid : row.id = maxRowId d + 1 := toRow_id hrow
    unfold countryResourceGet
    rw [List.find?_append]
    have h1 : d.find? (fun r => r.id == row.id) = none := by
      rw [List.find?_eq_none]
      intro x hx
      have hle := le_maxRowId d x hx
      simp only [beq_iff_eq]
      omega
    have h2 : List.find? (fun r => r.id == row.id) [row] = some row := by
      simp
    rw [h1, h2]
    rfl

/-- Witness for C8: create Wakanda in an empty table, then read id 1. -/
theorem c8_create_read_roundtrip_witness :
    countryResourceGet [wakanda] wakanda.id = Except.ok (200, "country", wakanda) :=
  c8_create_read_roundtrip [] wakandaData [wakanda] 200 ("country") wakanda (by decide)

/-- C9: after a successful delete of an id (HTTP 200, deleted row under the
`country_deleted` envelope), reading that id returns 404. -/
theorem c9_delete_then_get_404 (d : Table) (i : Int) (d' : Table)
    (code : Nat) (env : String) (c : Country)
    (h : countryResourceDelete d i = Except.ok (d', code, env, c)) :
    countryResourceGet d' i = Except.error HandlerError.notFound ∧
    statusOfError HandlerError.notFound = 404 := by
  refine ⟨?_, rfl⟩
  unfold countryResourceDelete at h
  cases hfind : d.find? (fun r => r.id == i) with
  | none =>
    rw [hfind] at h
    exact absurd h (by simp)
  | some c0 =>
    rw [hfind] at h
    simp only [Except.ok.injEq, Prod.mk.injEq] at h
    obtain ⟨hd', hcode, henv, hc⟩ := h
    subst hd'
    unfold countryResourceGet
    have hnone : (d.filter (fun r => !(r.id == i))).find? (fun r => r.id == i) = none := by
      rw [List.find?_eq_none]
      intro x hx
      have hmem := List.mem_filter.mp hx
      simpa using hmem.2
    rw [hnone]

/-- Witness for C9: delete id 1 from a two-row table, then read id 1. -/
theorem c9_delete_then_get_404_witness :
    countryResourceGet [atlantis] 1 = Except.error HandlerError.notFound ∧
    statusOfError HandlerError.notFound = 404 :=
  c9_delete_then_get_404 [wakanda, atlantis] 1 [atlantis] 200
    ("country_deleted") wakanda (by decide)

/-- C10: a successful update keeps the id of the updated record (only the
six non-id fields are overwritten) and leaves every row whose id differs
from the requested one entirely unchanged, in place. -/
theorem c10_update_frame (d : Table) (i : Int) (data : CountryData) (d' : Table)
    (code : Nat) (env : String) (c : Country)
    (h : countryResourcePut d i data = Except.ok (d', code, env, c)) :
    c.id = i ∧ d'.length = d.length ∧
    ∀ j : Nat, ∀ hj : j < d.length, ∀ hj' : j < d'.length,
      (d[j]).id ≠ i → d'[j] = d[j] := by
  unfold countryResourcePut at h
  cases hfind : d.find? (fun r => r.id == i) with
  | none =>
    rw [hfind] at h
    exact absurd h (by simp)
  | some c0 =>
    rw [hfind] at h
    cases hrow : data.toRow i with
    | none =>
      rw [hrow] at h
      exact absurd h (by simp)
    | some row =>
      rw [hrow] at h
      simp only [Except.ok.injEq, Prod.mk.injEq] at h
      obtain ⟨hd', hcode, henv, hc⟩ := h
      subst hd' hc
      refine ⟨toRow_id hrow, by simp, ?_⟩
      intro j hj hj' hne
      rw [List.getElem_map]
      have hfalse : ((d[j]).id == i) = false := by
        simpa using hne
      rw [hfalse]
      simp

/-- Witness for C10: update id 2 in a two-row table; id 2 keeps its id and
the row with id 1 is untouched. -/
theorem c10_update_frame_witness :
    updatedAtlantis.id = 2 ∧
    ([wakanda, updatedAtlantis] : Table)[0] = ([wakanda, atlantis] : Table)[0] :=
  have h := c10_update_frame [wakanda, atlantis] 2 updData
    [wakanda, updatedAtlantis] 200 ("country") updatedAtlantis (by decide)
  ⟨h.1, h.2.2 0 (by decide) (by decide) (by decide)⟩

end App
